import Mathlib

/-!
Shallow embedding of the SeerrLite acquisition pipeline (src/main.py,
src/utils.py) and verification of its specification claims.

Network responses, the external RTN ranking library and the mimetypes
table are modelled as explicit inputs (oracle fields of an environment
record); every control-flow decision of the source is transcribed.
-/

namespace Seerr

/-- One entry of the `streams` array of a Torrentio discovery response,
as read by the pipeline: `stream.get('infoHash')`, `stream.get('title')`,
`stream.get('fileIdx')` (absent keys give `none`). -/
structure Stream where
  infoHash : Option String
  title : Option String
  fileIdx : Option Int
deriving DecidableEq, Repr

/-- The `Torrent` object returned by `rtn.rank(title, info_hash)`:
the fields the pipeline reads (`infohash`, `rank`, `fetch`,
`data.parsed_title`). -/
structure Torrent where
  infohash : String
  rank : Int
  fetch : Bool
  parsed_title : String
deriving DecidableEq, Repr

/-- Result of a call to `rtn.rank`: either it raises `GarbageTorrent`
or returns a `Torrent` value. -/
inductive RankResult
  | garbage
  | ok (t : Torrent)
deriving DecidableEq, Repr

/-- Nested file record of a Real-Debrid instant-availability response:
`{"filename": ..., "filesize": ...}`. -/
structure FileInfo where
  filename : String
  filesize : Nat
deriving DecidableEq, Repr

/-- A normalized availability record: mapping from file position to file
info, as built by `get_instant_availability` (an association list models
the Python dict; empty means "not instantly available"). -/
abbrev AvailRecord := List (Nat × FileInfo)

/-- The per-hash value inside a Real-Debrid instant-availability
response body: an optional `"rd"` key holding a list of containers,
each a mapping from file position to file info.  `rd = none` models the
key being absent.  (The source parses the container keys with `int(k)`;
keys are modelled as the already-parsed numbers.) -/
structure HashValues where
  rd : Option (List (List (Nat × FileInfo)))
deriving DecidableEq, Repr

/-- Body of a Real-Debrid instant-availability response: either a JSON
list (unexpected shape, handled specially) or a mapping from hash to
`HashValues`. -/
inductive RDBody
  | jsonList
  | dict (entries : List (String × HashValues))
deriving DecidableEq, Repr

/-- Insert-or-overwrite into an association list; models assignment into
a Python dict being built. -/
def upsert (m : AvailRecord) (k : Nat) (v : FileInfo) : AvailRecord :=
  if (m.lookup k).isSome then
    m.map (fun p => if p.1 = k then (k, v) else p)
  else
    m ++ [(k, v)]

/-- The dict comprehension in `get_instant_availability`:
`{int(k): {"filename": ..., "filesize": ...} for container in values["rd"]
for k, v in container.items()}` — all containers flattened into one dict,
later duplicate keys overwriting earlier ones. -/
def flattenContainers (rdl : List (List (Nat × FileInfo))) : AvailRecord :=
  rdl.foldl (fun acc container =>
    container.foldl (fun acc2 p => upsert acc2 p.1 p.2) acc) []

/-- The branch in `get_instant_availability` on one hash's `values`:
`if "rd" in values and values["rd"]:` build the flattened record,
`else` the empty record. -/
def normalizeValues (v : HashValues) : AvailRecord :=
  match v.rd with
  | some rdl => if rdl.isEmpty then [] else flattenContainers rdl
  | none => []

/-- `get_instant_availability(hashes)` (src/utils.py:266-309) as a
function of the requested hashes and the HTTP response (status code and
body).  Non-200: every requested hash maps to `{}`.  A list body: every
requested hash maps to `{}`.  A dict body: the result is built from the
**response's** items, each normalized via `normalizeValues`. -/
def get_instant_availability (hashes : List String) (status : Nat)
    (body : RDBody) : List (String × AvailRecord) :=
  if status ≠ 200 then hashes.map (fun h => (h, []))
  else
    match body with
    | .jsonList => hashes.map (fun h => (h, []))
    | .dict entries => entries.map (fun p => (p.1, normalizeValues p.2))

/-- `check_rd_availability(info_hash)` (src/utils.py:314-328): calls
`get_instant_availability([info_hash])`; returns the record if the hash
is present with a truthy (non-empty) record, `None` otherwise (both the
"not available" and the "unexpected response format" logs return
`None`). -/
def check_rd_availability (status : Nat) (body : RDBody)
    (info_hash : String) : Option AvailRecord :=
  let availability := get_instant_availability [info_hash] status body
  match availability.lookup info_hash with
  | some r => if r.isEmpty then none else some r
  | none => none

/-- The `ids` object of a Trakt search result entry. -/
structure TraktIds where
  imdb : String
deriving DecidableEq, Repr

/-- One entry of a Trakt search response: carries both a `show` and a
`movie` object, the pipeline reads one of them by media type. -/
structure TraktEntry where
  show_ids : TraktIds
  movie_ids : TraktIds
deriving DecidableEq, Repr

/-- A Trakt search HTTP response (status code and JSON list body). -/
structure TraktResp where
  status : Nat
  body : List TraktEntry
deriving DecidableEq, Repr

/-- `get_imdb_id_from_trakt(tmdb_id, media_type)` (src/utils.py:202-238)
as a function of the service response: on a 200 response with a
non-empty list, return `data[0]['show'|'movie']['ids']['imdb']`; on a
200 response with an empty list, return `None` ("IMDb ID not found");
on any other status, return `None`. -/
def get_imdb_id_from_trakt (resp : TraktResp) (media_type : String) :
    Option String :=
  if resp.status = 200 then
    match resp.body with
    | [] => none
    | e :: _ =>
      if media_type = "tv" then some e.show_ids.imdb
      else some e.movie_ids.imdb
  else none

deriving instance DecidableEq for Except

/-- A Python value flowing into `select_files_in_rd`'s `file_idx`
parameter: the push path passes the stream's integer `fileIdx`, the
poll path passes the string literal `"1"`. -/
inductive PyVal
  | int (i : Int)
  | str (s : String)
deriving DecidableEq, Repr

/-- One entry of the `files` list of a Real-Debrid torrent-info
response: the fields read by `select_files_in_rd`. -/
structure RDFile where
  id : Int
  path : String
deriving DecidableEq, Repr

/-- The service responses consumed by one
`add_torrent_and_select_files` / `select_files_in_rd` run:
`addMagnet` status and returned id, `torrents/info` status and file
list, and the `selectFiles` POST status. -/
structure CommitEnv where
  addStatus : Nat
  addId : Option String
  filesStatus : Nat
  files : List RDFile
  selectStatus : Nat
deriving DecidableEq, Repr

/-- Observable outcome of `select_files_in_rd` when it returns (does
not raise): its boolean return value, whether the `selectFiles` POST
was issued, and the file ids sent in it. -/
structure SelectOutcome where
  success : Bool
  posted : Bool
  selected : List Int
deriving DecidableEq, Repr

/-- Python `m.startswith('video')`: the string begins with the five
characters of `video`. -/
def startsWithVideo (m : String) : Bool :=
  match m.data with
  | 'v' :: 'i' :: 'd' :: 'e' :: 'o' :: _ => true
  | _ => false

/-- `mimetypes.guess_type(path)[0] and ...startswith('video')`:
the guessed MIME type is a video type.  The stdlib `mimetypes` table is
an oracle parameter `guess`. -/
def guessIsVideo (guess : String → Option String) (path : String) : Bool :=
  match guess path with
  | some m => startsWithVideo m
  | none => false

/-- The Python expression `file_idx < 0 or file_idx >= len(files)`
(src/utils.py:406).  When `file_idx` is a string, the first comparison
raises `TypeError` (Python 3 forbids `str < int`). -/
def rangeCheck (file_idx : PyVal) (n : Nat) : Except String Bool :=
  match file_idx with
  | .str _ => .error "TypeError"
  | .int i => .ok (decide (i < 0) || decide ((n : Int) ≤ i))

/-- `select_files_in_rd(torrent_id, file_idx, media_type)`
(src/utils.py:380-436) as a function of the service responses.
Transcribed decisions: non-200 `torrents/info` → return `False`;
out-of-range `file_idx` (checked before the media-type branch) →
return `False` with no `selectFiles` POST; `movie` → POST exactly
`files[file_idx]['id']`; `tv` → POST all video-typed file ids, or
return `False` when there are none; unknown media type → `False`.
The POST succeeds only on a 204 status.  `Except.error` models an
uncaught Python exception. -/
def select_files_in_rd (guess : String → Option String) (env : CommitEnv)
    (file_idx : PyVal) (media_type : String) :
    Except String SelectOutcome :=
  if env.filesStatus ≠ 200 then .ok ⟨false, false, []⟩
  else
    match rangeCheck file_idx env.files.length with
    | .error e => .error e
    | .ok bad =>
      if bad then .ok ⟨false, false, []⟩
      else if media_type = "movie" then
        match file_idx with
        | .int i =>
          match env.files.get? i.toNat with
          | some f => .ok ⟨decide (env.selectStatus = 204), true, [f.id]⟩
          | none => .error "IndexError"
        | .str _ => .error "TypeError"
      else if media_type = "tv" then
        let playable :=
          (env.files.filter (fun f => guessIsVideo guess f.path)).map
            (fun f => f.id)
        if playable.isEmpty then .ok ⟨false, false, []⟩
        else .ok ⟨decide (env.selectStatus = 204), true, playable⟩
      else .ok ⟨false, false, []⟩

/-- Return value of `add_torrent_and_select_files`: `None` (on a
non-201 `addMagnet` status) or a result dict with a `success` flag. -/
inductive AddOutcome
  | noneResult
  | res (success : Bool) (msg : String)
deriving DecidableEq, Repr

/-- `add_torrent_and_select_files(info_hash, torrent_name, file_idx,
media_type)` (src/utils.py:335-371) as a function of the service
responses.  201 with an id → run `select_files_in_rd` and wrap its
boolean; 201 without an id → failure dict; any other status → `None`.
`Except.error` models an exception raised out of the call. -/
def add_torrent_and_select_files (guess : String → Option String)
    (env : CommitEnv) (file_idx : PyVal) (media_type : String) :
    Except String AddOutcome :=
  if env.addStatus = 201 then
    match env.addId with
    | some _ =>
      match select_files_in_rd guess env file_idx media_type with
      | .error e => .error e
      | .ok sel =>
        if sel.success then
          .ok (.res true "Torrent added and files selected.")
        else
          .ok (.res false "Failed to select files in the torrent.")
    | none => .ok (.res false "Torrent added, but torrent ID not found.")
  else .ok .noneResult

/-- Python truthiness of an optional string (`if info_hash and title`):
present and non-empty. -/
def truthyStr (o : Option String) : Bool :=
  match o with
  | some s => !(s = "")
  | none => false

/-- The environment of one poll-path request run
(`process_overseerr_request`): the Trakt response, the request's media
type, the Torrentio result (`none` when the call failed or the
`streams` key is missing), the per-hash result of
`check_rd_availability`, the RTN ranking oracle, the commit-stage
service responses and the mimetypes oracle. -/
structure Env where
  trakt : TraktResp
  media_type : String
  streams : Option (List Stream)
  avail : String → Option AvailRecord
  rank : String → String → RankResult
  commit : CommitEnv
  guess : String → Option String

/-- Mutable state of the candidate loop in `process_overseerr_request`
(src/utils.py:109-137): `ranked_torrents` in append order,
`checked_hashes` (insertion-ordered, duplicate-free) and
`garbage_count`. -/
structure LoopState where
  ranked : List Torrent
  checked : List String
  garbage : Nat
deriving DecidableEq, Repr

/-- The availability-and-ranking body of one loop iteration
(src/utils.py:120-132), for a fresh hash `h` with title `t`: an
unavailable hash (falsy `check_rd_availability` result) changes
nothing; an available hash is ranked — `GarbageTorrent` or
`fetch = False` increments `garbage_count`, `fetch = True` appends the
torrent to `ranked_torrents`. -/
def rankStep (env : Env) (s : LoopState) (h t : String) : LoopState :=
  match env.avail h with
  | some r =>
    if r.isEmpty then s
    else
      match env.rank t h with
      | .ok tor =>
        if tor.fetch then { s with ranked := s.ranked ++ [tor] }
        else { s with garbage := s.garbage + 1 }
      | .garbage => { s with garbage := s.garbage + 1 }
  | none => s

/-- One iteration of the candidate loop (src/utils.py:114-137) on one
stream: streams without a truthy `infoHash` and `title`, or with an
already-checked hash, are skipped; otherwise the hash is added to
`checked_hashes` and processed by `rankStep`.  The second component is
whether the `break` fires
(`len(checked_hashes) >= 5 and garbage_count == 5`, evaluated only
after a fresh valid hash was processed). -/
def processStream (env : Env) (s : LoopState) (st : Stream) :
    LoopState × Bool :=
  match st.infoHash, st.title with
  | some h, some t =>
    if truthyStr (some h) && truthyStr (some t) && !s.checked.contains h
    then
      let s2 := { rankStep env s h t with checked := s.checked ++ [h] }
      (s2, decide (5 ≤ s2.checked.length) && decide (s2.garbage = 5))
    else (s, false)
  | _, _ => (s, false)

/-- The candidate loop: fold `processStream` over the streams, stopping
when the break fires. -/
def runStreams (env : Env) : LoopState → List Stream → LoopState
  | s, [] => s
  | s, st :: rest =>
    let p := processStream env s st
    if p.2 then p.1 else runStreams env p.1 rest

/-- The sort key relation of
`sorted(ranked_torrents, key=lambda x: x.rank, reverse=True)`:
`a` may precede `b` when `a.rank ≥ b.rank`. -/
def rankGe (a b : Torrent) : Prop := b.rank ≤ a.rank

instance : DecidableRel rankGe := fun a b => Int.decLe b.rank a.rank

instance : IsTotal Torrent rankGe :=
  ⟨fun a b => le_total b.rank a.rank⟩

instance : IsTrans Torrent rankGe :=
  ⟨fun _ _ _ hab hbc => le_trans hbc hab⟩

/-- `sorted(ranked_torrents, key=lambda x: x.rank, reverse=True)`
(src/utils.py:140): Python's `sorted` is stable; a stable sort under a
total preorder is unique, so the insertion sort under `rankGe`
(which inserts each earlier-discovered element before all
equal-ranked later ones) computes exactly it. -/
def sortTorrents (l : List Torrent) : List Torrent :=
  l.insertionSort rankGe

/-- Side effects of one poll-path run: whether Torrentio discovery was
queried, how many `add_torrent_and_select_files` calls were made, and
how many `mark_completed` acknowledgements were sent. -/
structure Calls where
  discovery : Bool
  commits : Nat
  acks : Nat
deriving DecidableEq, Repr

/-- Terminal outcome of one poll-path run. `raised` covers an
exception reaching the outer `try` of `process_overseerr_request`
(logged, no acknowledgement), including the `AttributeError` from
`result.get('success')` when `add_torrent_and_select_files` returned
`None`. -/
inductive PollOutcome
  | noImdb
  | noStreams
  | noEligible
  | committed (best : Torrent) (acked : Bool)
  | raised (best : Torrent) (msg : String)
deriving DecidableEq, Repr

/-- Lines 139-143 of src/utils.py: run the candidate loop from the
empty state, stably sort `ranked_torrents` by rank descending
(`sorted(..., key=lambda x: x.rank, reverse=True)`), keep the first 5
(`sorted_torrents[:5]`). -/
def topTorrents (env : Env) (streams : List Stream) : List Torrent :=
  (sortTorrents (runStreams env ⟨[], [], 0⟩ streams).ranked).take 5

/-- Lines 153-159 of src/utils.py: commit the best torrent via
`add_torrent_and_select_files(best_torrent.infohash,
best_torrent.data.parsed_title, "1", media_type)` — note the string
literal `"1"` as the file index — and call `mark_completed` exactly
when `result.get('success')` is truthy.  A `None` result makes
`result.get` raise `AttributeError`; it and any other exception is
caught by the outer `try` (logged, no acknowledgement). -/
def commitBest (env : Env) (best : Torrent) : PollOutcome × Calls :=
  match add_torrent_and_select_files env.guess env.commit
      (.str "1") env.media_type with
  | .error e => (.raised best e, ⟨true, 1, 0⟩)
  | .ok .noneResult => (.raised best "AttributeError", ⟨true, 1, 0⟩)
  | .ok (.res s _) =>
    if s then (.committed best true, ⟨true, 1, 1⟩)
    else (.committed best false, ⟨true, 1, 0⟩)

/-- `process_overseerr_request(request)` (src/utils.py:87-161) as a
function of the environment: resolve the IMDb id (else return);
query Torrentio (empty/missing streams → return); run the candidate
loop; stably sort by rank descending, keep the top 5; if none remain
return ("No valid torrents found after ranking"); else commit the
best candidate. -/
def process_overseerr_request (env : Env) : PollOutcome × Calls :=
  match get_imdb_id_from_trakt env.trakt env.media_type with
  | none => (.noImdb, ⟨false, 0, 0⟩)
  | some _ =>
    match env.streams with
    | none => (.noStreams, ⟨true, 0, 0⟩)
    | some streams =>
      if streams.isEmpty then (.noStreams, ⟨true, 0, 0⟩)
      else
        match topTorrents env streams with
        | [] => (.noEligible, ⟨true, 0, 0⟩)
        | best :: _ => commitBest env best

/-- Terminal outcome of the push-path candidate loop in
`jellyseer_webhook` (src/main.py:69-98). -/
inductive PushOutcome
  | committed (t : Torrent) (success : Bool)
  | raised (t : Torrent) (msg : String)
  | noneAvailable
deriving DecidableEq, Repr

/-- The push-path candidate loop (src/main.py:69-98): iterate streams
in discovery order; skip a stream without truthy `infoHash`/`title` or
with `fileIdx` absent; skip unavailable, garbage and non-fetch
candidates; for the first available, fetch-flagged candidate call
`add_torrent_and_select_files(..., file_idx, media_type)` and return
its outcome either way (early accept); exhaustion → "No torrents
available on Real-Debrid". -/
def jellyseer_webhook_loop (env : Env) : List Stream → PushOutcome
  | [] => .noneAvailable
  | st :: rest =>
    match st.infoHash, st.title, st.fileIdx with
    | some h, some t, some fi =>
      if truthyStr (some h) && truthyStr (some t) then
        match env.avail h with
        | some r =>
          if r.isEmpty then jellyseer_webhook_loop env rest
          else
            match env.rank t h with
            | .ok tor =>
              if tor.fetch then
                match add_torrent_and_select_files env.guess env.commit
                    (.int fi) env.media_type with
                | .error e => .raised tor e
                | .ok .noneResult => .raised tor "AttributeError"
                | .ok (.res s _) => .committed tor s
              else jellyseer_webhook_loop env rest
            | .garbage => jellyseer_webhook_loop env rest
        | none => jellyseer_webhook_loop env rest
      else jellyseer_webhook_loop env rest
    | _, _, _ => jellyseer_webhook_loop env rest

/-- State of one `ratelimit.limits(calls=60, period=60)` decorator
instance.  Each decorated function in src/utils.py (`query_torrentio`,
`check_rd_availability`, `add_torrent_and_select_files`,
`select_files_in_rd`) owns its own instance: the decorator is applied
separately to each, so nothing is shared between call sites. -/
structure LimState where
  last_reset : Nat
  num_calls : Nat
deriving DecidableEq, Repr

/-- The window-reset step of the `ratelimit` decorator: when the
period has elapsed since `last_reset`, reset the counter and move the
window start to the current time. -/
def acquireReset (period : Nat) (s : LimState) (t : Nat) : LimState :=
  if s.last_reset + period ≤ t then ⟨t, 0⟩ else s

/-- One call through `sleep_and_retry` + `limits`: reset the window if
elapsed, increment the counter; if the counter is within the cap the
call runs now; otherwise `RateLimitException` is raised,
`sleep_and_retry` sleeps out the remaining period and retries at the
window end (where the window resets and the retry is admitted).
Returns the new limiter state and the time at which the call actually
executed — a call is delayed, never dropped. -/
def execCall (cap period : Nat) (s : LimState) (t : Nat) :
    LimState × Nat :=
  let s1 := acquireReset period s t
  if s1.num_calls + 1 ≤ cap then (⟨s1.last_reset, s1.num_calls + 1⟩, t)
  else (⟨s1.last_reset + period, 1⟩, s1.last_reset + period)

/-- Run a sequence of call request times through one decorated
function's limiter; returns the final state and the execution times. -/
def runSite (cap period : Nat) : LimState → List Nat → LimState × List Nat
  | s, [] => (s, [])
  | s, t :: ts =>
    match execCall cap period s t with
    | (s2, e) =>
      match runSite cap period s2 ts with
      | (s3, es) => (s3, e :: es)

/-- Run a sequence of call events, each tagged with the call site it
goes through (`true` = first site, `false` = second site), through the
two **independent** limiter instances, as the source creates by
decorating each function separately; returns all execution times. -/
def runTwoSites (cap period : Nat) :
    LimState × LimState → List (Bool × Nat) → List Nat
  | _, [] => []
  | (sa, sb), (site, t) :: evs =>
    if site then
      match execCall cap period sa t with
      | (sa2, e) => e :: runTwoSites cap period (sa2, sb) evs
    else
      match execCall cap period sb t with
      | (sb2, e) => e :: runTwoSites cap period (sa, sb2) evs

/-- The availability-and-acceptance eligibility predicate of the spec:
the candidate's content hash has a truthy (non-empty)
`check_rd_availability` record and its ranking accept flag is set. -/
def availAccepted (env : Env) (tor : Torrent) : Prop :=
  (∃ r, env.avail tor.infohash = some r ∧ r.isEmpty = false) ∧
    tor.fetch = true

/-- The RTN library's contract that `rtn.rank(title, info_hash)`
returns a torrent whose `infohash` field is the passed hash. -/
def rankFaithful (env : Env) : Prop :=
  ∀ t h tor, env.rank t h = .ok tor → tor.infohash = h

/-- Checking hash `h` under title `t` is available but
ranking-rejected: its availability record is truthy and `rtn.rank`
either raises `GarbageTorrent` or returns `fetch = False` — the two
branches that increment `garbage_count`. -/
def availRejected (env : Env) (h t : String) : Prop :=
  (∃ r, env.avail h = some r ∧ r.isEmpty = false) ∧
    (env.rank t h = .garbage ∨
      ∃ tor, env.rank t h = .ok tor ∧ tor.fetch = false)

/-- The sequence of (hash, title) pairs the candidate loop checks, in
check order, starting from the already-checked hashes `acc`: the guard
of src/utils.py:118 consults only the stream fields and the checked
set, so which hashes are checked — and with which title each is
checked — is determined by the discovery result alone, as long as the
loop has not stopped before reaching them (the break cannot fire
before the 5th check, since `checked_hashes` grows by one per check).
In particular `(checkedPairs [] streams).take 5` is exactly the first
(up to) 5 distinct hashes checked, with their titles. -/
def checkedPairs (acc : List String) : List Stream → List (String × String)
  | [] => []
  | st :: rest =>
    match st.infoHash, st.title with
    | some h, some t =>
      if truthyStr (some h) && truthyStr (some t) && !acc.contains h
      then (h, t) :: checkedPairs (acc ++ [h]) rest
      else checkedPairs acc rest
    | _, _ => checkedPairs acc rest

/-- The hash-bookkeeping step of one loop iteration, in isolation:
a stream with a truthy, not-yet-checked hash and a truthy title adds
its hash to `checked_hashes`; any other stream leaves it unchanged. -/
def checkedAfter (acc : List String) (st : Stream) : List String :=
  match st.infoHash, st.title with
  | some h, some t =>
    if truthyStr (some h) && truthyStr (some t) && !acc.contains h
    then acc ++ [h]
    else acc
  | _, _ => acc

/-- A five-candidate discovery result for the best-of-batch scenario:
distinct hashes `h1`..`h5`, titles `t1`..`t5`. -/
def demoStreams : List Stream :=
  [⟨some "h1", some "t1", some 0⟩, ⟨some "h2", some "t2", some 0⟩,
   ⟨some "h3", some "t3", some 0⟩, ⟨some "h4", some "t4", some 0⟩,
   ⟨some "h5", some "t5", some 0⟩]

/-- Ranking oracle scoring the five demo candidates
[10, 30, 20, 5, 25] in discovery order, all accept-flagged. -/
def demoRankFn (t h : String) : RankResult :=
  .ok ⟨h,
    (if t = "t1" then 10 else if t = "t2" then 30
     else if t = "t3" then 20 else if t = "t4" then 5
     else 25 : Int), true, t⟩

/-- Commit-stage responses for the demo run: the magnet is accepted
(201, id present) but the file listing fetch fails (non-200), so
`select_files_in_rd` returns `False` without raising and the commit
result is a failure dict. -/
def demoCommit : CommitEnv := ⟨201, some "tid", 404, [], 204⟩

/-- Environment of the best-of-batch demo run: resolution succeeds,
discovery returns the five demo candidates, every hash is instantly
available, ranking scores them [10, 30, 20, 5, 25]. -/
def demoEnv : Env where
  trakt := ⟨200, [⟨⟨"tt1"⟩, ⟨"tt1"⟩⟩]⟩
  media_type := "movie"
  streams := some demoStreams
  avail := fun _ => some [(0, ⟨"f.mkv", 1⟩)]
  rank := demoRankFn
  commit := demoCommit
  guess := fun _ => none

/-- A six-candidate discovery result with distinct hashes, all
available and accept-flagged. -/
def sixStreams : List Stream :=
  [⟨some "h1", some "t", some 0⟩, ⟨some "h2", some "t", some 0⟩,
   ⟨some "h3", some "t", some 0⟩, ⟨some "h4", some "t", some 0⟩,
   ⟨some "h5", some "t", some 0⟩, ⟨some "h6", some "t", some 0⟩]

/-- Environment in which all six candidates are available and
accept-flagged (nothing is garbage). -/
def sixEnv : Env where
  trakt := ⟨200, [⟨⟨"tt1"⟩, ⟨"tt1"⟩⟩]⟩
  media_type := "movie"
  streams := some sixStreams
  avail := fun _ => some [(0, ⟨"f.mkv", 1⟩)]
  rank := fun t h => .ok ⟨h, 1, true, t⟩
  commit := demoCommit
  guess := fun _ => none

/-- mimetypes oracle for the series counterexample: `a.mkv` is a video
type. -/
def mkvGuess : String → Option String :=
  fun p => if p = "a.mkv" then some "video/x-matroska" else none

/-- Commit-stage responses for the series counterexample: one file in
the torrent, and it is a video file. -/
def oneVideoCommit : CommitEnv := ⟨201, some "tid", 200, [⟨7, "a.mkv"⟩], 204⟩

/-- Environment with six candidates in which the first five checked
hashes are available but garbage while the sixth hash (`h6`) would be
available and accept-flagged — the early-stop scenario where checking
a 6th hash would have changed the outcome. -/
def sixthGoodEnv : Env where
  trakt := ⟨200, [⟨⟨"tt1"⟩, ⟨"tt1"⟩⟩]⟩
  media_type := "movie"
  streams := some sixStreams
  avail := fun _ => some [(0, ⟨"f.mkv", 1⟩)]
  rank := fun t h => if h = "h6" then .ok ⟨h, 50, true, t⟩ else .garbage
  commit := demoCommit
  guess := fun _ => none

/-- Environment whose identifier resolution gets a 200 response with an
empty result list (Trakt finds nothing). -/
def emptyTraktEnv : Env :=
  { demoEnv with trakt := ⟨200, []⟩ }

/-! ### Lemmas about the candidate loop -/

theorem rankStep_checked (env : Env) (s : LoopState) (h t : String) :
    (rankStep env s h t).checked = s.checked := by
  cases hav : env.avail h with
  | none => simp [rankStep, hav]
  | some r =>
    by_cases hre : r.isEmpty
    · simp [rankStep, hav, hre]
    · cases hrk : env.rank t h with
      | garbage => simp [rankStep, hav, hre, hrk]
      | ok tor =>
        by_cases hf : tor.fetch <;> simp [rankStep, hav, hre, hrk, hf]

theorem rankStep_garbage_mono (env : Env) (s : LoopState) (h t : String) :
    s.garbage ≤ (rankStep env s h t).garbage := by
  cases hav : env.avail h with
  | none => simp [rankStep, hav]
  | some r =>
    by_cases hre : r.isEmpty
    · simp [rankStep, hav, hre]
    · cases hrk : env.rank t h with
      | garbage => simp [rankStep, hav, hre, hrk]
      | ok tor =>
        by_cases hf : tor.fetch <;> simp [rankStep, hav, hre, hrk, hf]

theorem rankStep_ranked_mem (env : Env) (hr : rankFaithful env)
    (s : LoopState) (h t : String) :
    ∀ tor ∈ (rankStep env s h t).ranked,
      tor ∈ s.ranked ∨ availAccepted env tor := by
  intro tor hmem
  cases hav : env.avail h with
  | none => rw [show rankStep env s h t = s by simp [rankStep, hav]] at hmem; exact Or.inl hmem
  | some r =>
    by_cases hre : r.isEmpty
    · rw [show rankStep env s h t = s by simp [rankStep, hav, hre]] at hmem
      exact Or.inl hmem
    · cases hrk : env.rank t h with
      | garbage =>
        rw [show rankStep env s h t = { s with garbage := s.garbage + 1 } by
          simp [rankStep, hav, hre, hrk]] at hmem
        exact Or.inl hmem
      | ok tor2 =>
        by_cases hf : tor2.fetch
        · rw [show rankStep env s h t = { s with ranked := s.ranked ++ [tor2] } by
            simp [rankStep, hav, hre, hrk, hf]] at hmem
          simp at hmem
          rcases hmem with hm | hm
          · exact Or.inl hm
          · refine Or.inr ?_
            rw [hm]
            refine ⟨⟨r, ?_, ?_⟩, hf⟩
            · rw [hr t h tor2 hrk]; exact hav
            · simpa using hre
        · rw [show rankStep env s h t = { s with garbage := s.garbage + 1 } by
            simp [rankStep, hav, hre, hrk, hf]] at hmem
          exact Or.inl hmem

theorem rankStep_rejected (env : Env) (s : LoopState) (h t : String)
    (havail : ∃ r, env.avail h = some r ∧ r.isEmpty = false)
    (hrej : env.rank t h = .garbage ∨
      ∃ tor, env.rank t h = .ok tor ∧ tor.fetch = false) :
    rankStep env s h t = { s with garbage := s.garbage + 1 } := by
  obtain ⟨r, hav, hre⟩ := havail
  rcases hrej with hg | ⟨tor, hok, hf⟩
  · simp [rankStep, hav, hre, hg]
  · simp [rankStep, hav, hre, hok, hf]


theorem runStreams_cons (env : Env) (s : LoopState) (st : Stream)
    (rest : List Stream) :
    runStreams env s (st :: rest) =
      if (processStream env s st).2 then (processStream env s st).1
      else runStreams env (processStream env s st).1 rest := rfl

theorem processStream_checked (env : Env) (s : LoopState) (st : Stream) :
    (processStream env s st).1.checked = checkedAfter s.checked st := by
  obtain ⟨ih, tt, fi⟩ := st
  cases ih with
  | none => rfl
  | some h =>
    cases tt with
    | none => rfl
    | some t =>
      by_cases hg :
          (truthyStr (some h) && truthyStr (some t) &&
            !s.checked.contains h) = true
      · simp only [processStream, checkedAfter]
        rw [if_pos hg, if_pos hg]
      · simp only [processStream, checkedAfter]
        rw [if_neg hg, if_neg hg]

theorem processStream_garbage_mono (env : Env) (s : LoopState)
    (st : Stream) :
    s.garbage ≤ (processStream env s st).1.garbage := by
  obtain ⟨ih, tt, fi⟩ := st
  cases ih with
  | none => exact le_refl _
  | some h =>
    cases tt with
    | none => exact le_refl _
    | some t =>
      by_cases hg :
          (truthyStr (some h) && truthyStr (some t) &&
            !s.checked.contains h) = true
      · simp only [processStream]
        rw [if_pos hg]
        exact rankStep_garbage_mono env s h t
      · simp only [processStream]
        rw [if_neg hg]

theorem processStream_ranked_mem (env : Env) (hr : rankFaithful env)
    (s : LoopState) (st : Stream) :
    ∀ tor ∈ (processStream env s st).1.ranked,
      tor ∈ s.ranked ∨ availAccepted env tor := by
  intro tor hmem
  obtain ⟨ih, tt, fi⟩ := st
  cases ih with
  | none => exact Or.inl hmem
  | some h =>
    cases tt with
    | none => exact Or.inl hmem
    | some t =>
      by_cases hg :
          (truthyStr (some h) && truthyStr (some t) &&
            !s.checked.contains h) = true
      · simp only [processStream] at hmem
        rw [if_pos hg] at hmem
        exact rankStep_ranked_mem env hr s h t tor hmem
      · simp only [processStream] at hmem
        rw [if_neg hg] at hmem
        exact Or.inl hmem

theorem processStream_break (env : Env) (s : LoopState) (st : Stream)
    (hb : (processStream env s st).2 = true) :
    (processStream env s st).1.garbage = 5 := by
  obtain ⟨ih, tt, fi⟩ := st
  cases ih with
  | none => simp [processStream] at hb
  | some h =>
    cases tt with
    | none => simp [processStream] at hb
    | some t =>
      by_cases hg :
          (truthyStr (some h) && truthyStr (some t) &&
            !s.checked.contains h) = true
      · simp only [processStream] at hb ⊢
        rw [if_pos hg] at hb ⊢
        simp only [Bool.and_eq_true, decide_eq_true_eq] at hb
        exact hb.2
      · simp only [processStream] at hb
        rw [if_neg hg] at hb
        simp at hb

theorem runStreams_garbage_mono (env : Env) :
    ∀ (l : List Stream) (s : LoopState),
      s.garbage ≤ (runStreams env s l).garbage := by
  intro l
  induction l with
  | nil => intro s; exact le_refl _
  | cons st rest iH =>
    intro s
    rw [runStreams_cons]
    by_cases hb : (processStream env s st).2 = true
    · rw [if_pos hb]; exact processStream_garbage_mono env s st
    · rw [if_neg hb]
      exact le_trans (processStream_garbage_mono env s st) (iH _)

theorem runStreams_ranked_mem (env : Env) (hr : rankFaithful env) :
    ∀ (l : List Stream) (s : LoopState) (tor : Torrent),
      tor ∈ (runStreams env s l).ranked →
      tor ∈ s.ranked ∨ availAccepted env tor := by
  intro l
  induction l with
  | nil => intro s tor hm; exact Or.inl hm
  | cons st rest iH =>
    intro s tor hm
    rw [runStreams_cons] at hm
    by_cases hb : (processStream env s st).2 = true
    · rw [if_pos hb] at hm
      exact processStream_ranked_mem env hr s st tor hm
    · rw [if_neg hb] at hm
      rcases iH _ _ hm with hm2 | hm2
      · exact processStream_ranked_mem env hr s st tor hm2
      · exact Or.inr hm2

theorem runStreams_checked_of_garbage_lt (env : Env) :
    ∀ (l : List Stream) (s : LoopState),
      (runStreams env s l).garbage < 5 →
      (runStreams env s l).checked = l.foldl checkedAfter s.checked := by
  intro l
  induction l with
  | nil => intro s _; rfl
  | cons st rest iH =>
    intro s hlt
    rw [runStreams_cons] at hlt ⊢
    by_cases hb : (processStream env s st).2 = true
    · rw [if_pos hb] at hlt
      exact absurd (processStream_break env s st hb) (by omega)
    · rw [if_neg hb] at hlt ⊢
      rw [List.foldl_cons, ← processStream_checked env s st]
      exact iH _ hlt


theorem processStream_shape (env : Env) (s : LoopState) (st : Stream)
    (rest : List Stream) :
    (processStream env s st = (s, false) ∧
      checkedPairs s.checked (st :: rest) = checkedPairs s.checked rest) ∨
    ∃ h t, st.infoHash = some h ∧ st.title = some t ∧
      checkedPairs s.checked (st :: rest) =
        (h, t) :: checkedPairs (s.checked ++ [h]) rest ∧
      (availRejected env h t →
        processStream env s st =
          (⟨s.ranked, s.checked ++ [h], s.garbage + 1⟩,
           decide (5 ≤ s.checked.length + 1) &&
             decide (s.garbage + 1 = 5))) := by
  obtain ⟨ih, tt, fi⟩ := st
  cases ih with
  | none => exact Or.inl ⟨rfl, rfl⟩
  | some h =>
    cases tt with
    | none => exact Or.inl ⟨rfl, rfl⟩
    | some t =>
      by_cases hg :
          (truthyStr (some h) && truthyStr (some t) &&
            !s.checked.contains h) = true
      · refine Or.inr ⟨h, t, rfl, rfl, ?_, ?_⟩
        · simp only [checkedPairs]
          rw [if_pos hg]
        · intro hrj
          have hstep := rankStep_rejected env s h t hrj.1 hrj.2
          simp only [processStream]
          rw [if_pos hg, hstep]
          simp
      · refine Or.inl ⟨?_, ?_⟩
        · simp only [processStream]
          rw [if_neg hg]
        · simp only [checkedPairs]
          rw [if_neg hg]

theorem runStreams_firstFive (env : Env) :
    ∀ (l : List Stream) (s : LoopState),
      (∀ p ∈ (checkedPairs s.checked l).take (5 - s.checked.length),
        availRejected env p.1 p.2) →
      s.ranked = [] → s.garbage = s.checked.length →
      s.checked.length ≤ 4 →
      (runStreams env s l).ranked = [] ∧
        (runStreams env s l).garbage = (runStreams env s l).checked.length ∧
        (runStreams env s l).checked.length ≤ 5 := by
  intro l
  induction l with
  | nil => intro s _ h1 h2 h3; exact ⟨h1, h2, Nat.le_succ_of_le h3⟩
  | cons st rest iH =>
    intro s hrej h1 h2 h3
    rcases processStream_shape env s st rest with ⟨hp, hcp⟩ |
      ⟨h, t, hih, hit, hcp, hpf⟩
    · rw [runStreams_cons, hp]
      simp only [if_neg]
      rw [hcp] at hrej
      exact iH s hrej h1 h2 h3
    · obtain ⟨n, hn⟩ : ∃ n, 5 - s.checked.length = n + 1 :=
        ⟨5 - s.checked.length - 1, by omega⟩
      have hmem : (h, t) ∈
          (checkedPairs s.checked (st :: rest)).take
            (5 - s.checked.length) := by
        rw [hcp, hn, List.take_succ_cons]
        exact List.mem_cons_self _ _
      have hp := hpf (hrej (h, t) hmem)
      rw [runStreams_cons, hp]
      by_cases hfive : s.garbage + 1 = 5
      · have hlen : 5 ≤ s.checked.length + 1 := by omega
        rw [if_pos (by simp [hfive, hlen])]
        refine ⟨h1, ?_, ?_⟩ <;> simp <;> omega
      · rw [if_neg (by simp [hfive])]
        have hrej2 : ∀ p ∈ (checkedPairs (s.checked ++ [h]) rest).take
            (5 - (s.checked ++ [h]).length), availRejected env p.1 p.2 := by
          intro p hpmem
          refine hrej p ?_
          rw [hcp, hn, List.take_succ_cons]
          refine List.mem_cons_of_mem _ ?_
          have hlen2 : 5 - (s.checked ++ [h]).length = n := by
            simp; omega
          rw [hlen2] at hpmem
          exact hpmem
        have := iH ⟨s.ranked, s.checked ++ [h], s.garbage + 1⟩ hrej2
          (by simpa using h1) (by simp; omega) (by simp; omega)
        simpa using this

/-! ### Lemmas about the poll-path pipeline -/

theorem process_cases (env : Env) :
    process_overseerr_request env = (.noImdb, ⟨false, 0, 0⟩) ∨
    process_overseerr_request env = (.noStreams, ⟨true, 0, 0⟩) ∨
    process_overseerr_request env = (.noEligible, ⟨true, 0, 0⟩) ∨
    ∃ streams best rest, env.streams = some streams ∧
      topTorrents env streams = best :: rest ∧
      process_overseerr_request env = commitBest env best := by
  cases himdb : get_imdb_id_from_trakt env.trakt env.media_type with
  | none => left; simp [process_overseerr_request, himdb]
  | some imdb =>
    cases hs : env.streams with
    | none => right; left; simp [process_overseerr_request, himdb, hs]
    | some streams =>
      by_cases he : streams.isEmpty
      · right; left; simp [process_overseerr_request, himdb, hs, he]
      · cases ht : topTorrents env streams with
        | nil =>
          right; right; left
          simp [process_overseerr_request, himdb, hs, he, ht]
        | cons best rest =>
          right; right; right
          exact ⟨streams, best, rest, rfl, ht, by
            simp [process_overseerr_request, himdb, hs, he, ht]⟩

theorem commitBest_committed (env : Env) (best : Torrent) :
    ∀ b a, (commitBest env best).1 = .committed b a → b = best := by
  intro b a hE
  unfold commitBest at hE
  cases hadd : add_torrent_and_select_files env.guess env.commit (.str "1")
      env.media_type with
  | error e => rw [hadd] at hE; simp at hE
  | ok r =>
    cases r with
    | noneResult => rw [hadd] at hE; simp at hE
    | res s m =>
      rw [hadd] at hE
      cases s
      · simp at hE; exact hE.1.symm
      · simp at hE; exact hE.1.symm

theorem commitBest_raised (env : Env) (best : Torrent) :
    ∀ b m, (commitBest env best).1 = .raised b m → b = best := by
  intro b m hE
  unfold commitBest at hE
  cases hadd : add_torrent_and_select_files env.guess env.commit (.str "1")
      env.media_type with
  | error e => rw [hadd] at hE; simp at hE; exact hE.1.symm
  | ok r =>
    cases r with
    | noneResult => rw [hadd] at hE; simp at hE; exact hE.1.symm
    | res s mm =>
      rw [hadd] at hE
      cases s
      · simp at hE
      · simp at hE

theorem select_str_no_success (guess : String → Option String)
    (cenv : CommitEnv) (s mt : String) :
    select_files_in_rd guess cenv (.str s) mt = .ok ⟨false, false, []⟩ ∨
    select_files_in_rd guess cenv (.str s) mt = .error "TypeError" := by
  unfold select_files_in_rd
  by_cases h200 : cenv.filesStatus = 200
  · rw [if_neg (by simp [h200])]
    exact Or.inr rfl
  · rw [if_pos (by simpa using h200)]
    exact Or.inl rfl

theorem add_str_no_success (guess : String → Option String)
    (cenv : CommitEnv) (s mt : String) :
    ∀ m, add_torrent_and_select_files guess cenv (.str s) mt ≠
      .ok (.res true m) := by
  intro m hE
  unfold add_torrent_and_select_files at hE
  by_cases ha : cenv.addStatus = 201
  · rw [if_pos ha] at hE
    cases hid : cenv.addId with
    | none => rw [hid] at hE; simp at hE
    | some tid =>
      rw [hid] at hE
      rcases select_str_no_success guess cenv s mt with hsel | hsel <;>
        rw [hsel] at hE <;> simp at hE
  · rw [if_neg ha] at hE
    simp at hE

theorem commitBest_no_ack (env : Env) (best : Torrent) :
    (commitBest env best).2.acks = 0 ∧
    ∀ b a, (commitBest env best).1 = .committed b a → a = false := by
  unfold commitBest
  cases hadd : add_torrent_and_select_files env.guess env.commit (.str "1")
      env.media_type with
  | error e => exact ⟨rfl, by intro b a hE; simp at hE⟩
  | ok r =>
    cases r with
    | noneResult => exact ⟨rfl, by intro b a hE; simp at hE⟩
    | res s m =>
      cases s
      · exact ⟨rfl, by intro b a hE; simp at hE; exact hE.2⟩
      · exact absurd hadd
          (add_str_no_success env.guess env.commit "1" env.media_type m)

theorem topTorrents_head_eligible (env : Env) (hr : rankFaithful env)
    (streams : List Stream) (best : Torrent) (rest : List Torrent)
    (ht : topTorrents env streams = best :: rest) :
    availAccepted env best := by
  have hmem : best ∈ topTorrents env streams := by
    rw [ht]; exact List.mem_cons_self _ _
  unfold topTorrents at hmem
  have h1 : best ∈ sortTorrents (runStreams env ⟨[], [], 0⟩ streams).ranked :=
    List.mem_of_mem_take hmem
  have h2 : best ∈ (runStreams env ⟨[], [], 0⟩ streams).ranked := by
    unfold sortTorrents at h1
    exact (List.mem_insertionSort rankGe).mp h1
  rcases runStreams_ranked_mem env hr streams ⟨[], [], 0⟩ best h2 with h3 | h3
  · cases h3
  · exact h3


theorem push_loop_eligible (env : Env) (hr : rankFaithful env) :
    ∀ (streams : List Stream),
      (∀ tor s2, jellyseer_webhook_loop env streams = .committed tor s2 →
        availAccepted env tor) ∧
      (∀ tor m, jellyseer_webhook_loop env streams = .raised tor m →
        availAccepted env tor) := by
  intro streams
  induction streams with
  | nil =>
    constructor <;> intro tor x hE <;> simp [jellyseer_webhook_loop] at hE
  | cons st rest iH =>
    obtain ⟨ihash, tt, fi⟩ := st
    cases ihash with
    | none => simpa [jellyseer_webhook_loop] using iH
    | some h =>
      cases tt with
      | none => simpa [jellyseer_webhook_loop] using iH
      | some t =>
        cases fi with
        | none => simpa [jellyseer_webhook_loop] using iH
        | some fidx =>
          by_cases hg : (truthyStr (some h) && truthyStr (some t)) = true
          · cases hav : env.avail h with
            | none => simpa [jellyseer_webhook_loop, hg, hav] using iH
            | some r =>
              by_cases hre : r.isEmpty
              · simpa [jellyseer_webhook_loop, hg, hav, hre] using iH
              · cases hrk : env.rank t h with
                | garbage =>
                  simpa [jellyseer_webhook_loop, hg, hav, hre, hrk] using iH
                | ok tor2 =>
                  by_cases hf : tor2.fetch
                  · have hacc : availAccepted env tor2 := by
                      refine ⟨⟨r, ?_, ?_⟩, hf⟩
                      · rw [hr t h tor2 hrk]; exact hav
                      · simpa using hre
                    constructor <;> intro tor x hE <;>
                      simp only [jellyseer_webhook_loop, hg, hav, hre, hrk,
                        hf, if_true, if_pos, Bool.not_eq_true] at hE
                    all_goals {
                      cases hadd : add_torrent_and_select_files env.guess
                          env.commit (.int fidx) env.media_type with
                      | error e =>
                        rw [hadd] at hE
                        simp at hE
                        try { rw [← hE.1]; exact hacc }
                      | ok rr =>
                        cases rr with
                        | noneResult =>
                          rw [hadd] at hE
                          simp at hE
                          try { rw [← hE.1]; exact hacc }
                        | res sflag mm =>
                          rw [hadd] at hE
                          cases sflag <;> simp at hE <;>
                            try { rw [← hE.1]; exact hacc }
                    }
                  · simpa [jellyseer_webhook_loop, hg, hav, hre, hrk, hf]
                      using iH
          · simpa [jellyseer_webhook_loop, hg] using iH

/-! ### Association-list lookup lemmas for the availability filter -/

theorem lookup_map_empty (hashes : List String) (h : String)
    (hmem : h ∈ hashes) :
    (hashes.map (fun x => (x, ([] : AvailRecord)))).lookup h = some [] := by
  induction hashes with
  | nil => cases hmem
  | cons a rest iH =>
    by_cases heq : h = a
    · subst heq; simp [List.lookup]
    · have hbe : (h == a) = false := beq_eq_false_iff_ne.mpr heq
      simp only [List.map_cons, List.lookup, hbe]
      refine iH ?_
      rcases List.mem_cons.mp hmem with e | m
      · exact absurd e heq
      · exact m

theorem lookup_map_normalize (entries : List (String × HashValues))
    (h : String) :
    ((entries.map (fun p => (p.1, normalizeValues p.2))).lookup h) =
      (entries.lookup h).map normalizeValues := by
  induction entries with
  | nil => rfl
  | cons a rest iH =>
    by_cases heq : h = a.1
    · have hbe : (h == a.1) = true := beq_iff_eq.mpr heq
      simp only [List.map_cons, List.lookup, hbe]
      rfl
    · have hbe : (h == a.1) = false := beq_eq_false_iff_ne.mpr heq
      simp only [List.map_cons, List.lookup, hbe]
      exact iH

/-! ### The claims -/

/-- C1. Best-of-batch (poll-path) selection: `ranked_torrents` is
stably sorted by rank descending — the result is a permutation, sorted
under `rankGe`, and any earlier-discovered candidate whose rank is ≥ a
later one (in particular, equal) stays before it — at most the top 5
are retained, and on the concrete five-candidate batch scored
[10, 30, 20, 5, 25] (all available, all accepted) the retained list is
exactly the candidates in order [30, 25, 20, 10, 5] and the candidate
scored 30 is the one committed (one commit call). -/
theorem C1_best_of_batch_selection :
    (∀ l : List Torrent, (sortTorrents l).Perm l) ∧
    (∀ l : List Torrent, (sortTorrents l).Sorted rankGe) ∧
    (∀ (a b : Torrent) (l : List Torrent), rankGe a b →
      [a, b].Sublist l → [a, b].Sublist (sortTorrents l)) ∧
    (∀ (env : Env) (streams : List Stream),
      (topTorrents env streams).length ≤ 5) ∧
    topTorrents demoEnv demoStreams =
      [⟨"h2", 30, true, "t2"⟩, ⟨"h5", 25, true, "t5"⟩,
       ⟨"h3", 20, true, "t3"⟩, ⟨"h1", 10, true, "t1"⟩,
       ⟨"h4", 5, true, "t4"⟩] ∧
    process_overseerr_request demoEnv =
      (.committed ⟨"h2", 30, true, "t2"⟩ false, ⟨true, 1, 0⟩) := by
  refine ⟨?_, ?_, ?_, ?_, ?_, ?_⟩
  · intro l; exact List.perm_insertionSort rankGe l
  · intro l; exact List.sorted_insertionSort rankGe l
  · intro a b l hab hsub
    exact List.pair_sublist_insertionSort hab hsub
  · intro env streams; exact List.length_take_le 5 _
  · decide
  · decide

/-- Witness for C1: the stability clause applied to two concrete
equal-rank candidates around a higher-ranked one. -/
theorem C1_best_of_batch_selection_witness :
    [⟨"a", 7, true, "x"⟩, ⟨"b", 7, true, "y"⟩].Sublist
      (sortTorrents [⟨"a", 7, true, "x"⟩, ⟨"c", 9, true, "z"⟩,
        ⟨"b", 7, true, "y"⟩]) :=
  C1_best_of_batch_selection.2.2.1 ⟨"a", 7, true, "x"⟩ ⟨"b", 7, true, "y"⟩
    [⟨"a", 7, true, "x"⟩, ⟨"c", 9, true, "z"⟩, ⟨"b", 7, true, "y"⟩]
    (by decide) (by decide)

/-- C2 counterexample.  With six distinct, available, accept-flagged
candidates in the discovery result, the loop checks all six hashes:
the break condition `len(checked_hashes) >= 5 and garbage_count == 5`
never fires because nothing is garbage, so the claimed cap of 5 checked
hashes is violated. -/
theorem C2_cap_counterexample :
    sixEnv.streams = some sixStreams ∧
    (runStreams sixEnv ⟨[], [], 0⟩ sixStreams).checked =
      ["h1", "h2", "h3", "h4", "h5", "h6"] ∧
    ¬ (runStreams sixEnv ⟨[], [], 0⟩ sixStreams).checked.length ≤ 5 :=
  ⟨rfl, by decide, by decide⟩

/-- C2 amended.  The loop's iteration is not capped at 5 distinct
hashes: it stops early only through the garbage break.  Whenever the
run ends with fewer than 5 ranking-rejections, every stream with a
truthy, fresh hash and truthy title was checked (`checked_hashes` is
the full fold over the discovery result), and the garbage counter is
monotone along the loop. -/
theorem C2_checking_unbounded (env : Env) (streams : List Stream)
    (hlt : (runStreams env ⟨[], [], 0⟩ streams).garbage < 5) :
    (runStreams env ⟨[], [], 0⟩ streams).checked =
      streams.foldl checkedAfter [] ∧
    ∀ s : LoopState, s.garbage ≤ (runStreams env s streams).garbage :=
  ⟨runStreams_checked_of_garbage_lt env streams ⟨[], [], 0⟩ hlt,
   fun s => runStreams_garbage_mono env streams s⟩

/-- Witness for C2 amended: on the six-candidate run (garbage count 0)
the checked list is the full fold over the streams. -/
theorem C2_checking_unbounded_witness :
    (runStreams sixEnv ⟨[], [], 0⟩ sixStreams).checked =
      sixStreams.foldl checkedAfter [] :=
  (C2_checking_unbounded sixEnv sixStreams (by decide)).1

/-- C3.  If the first 5 distinct hashes the loop checks — the first 5
entries of the env-independent check sequence `checkedPairs`, each
with the title it is checked under — are all available but
ranking-rejected, then no matter what the candidates beyond them are,
the loop stops with at most 5 hashes checked (no 6th is checked),
`ranked_torrents` stays empty, and the request terminates with the
"no valid torrents found after ranking" outcome — no commit call and
no acknowledgement. -/
theorem C3_early_stop (env : Env) (streams : List Stream)
    (hs : env.streams = some streams) (hne : streams ≠ [])
    (himdb : ∃ i, get_imdb_id_from_trakt env.trakt env.media_type = some i)
    (hrej : ∀ p ∈ (checkedPairs [] streams).take 5,
      availRejected env p.1 p.2) :
    (runStreams env ⟨[], [], 0⟩ streams).checked.length ≤ 5 ∧
    (runStreams env ⟨[], [], 0⟩ streams).ranked = [] ∧
    process_overseerr_request env = (.noEligible, ⟨true, 0, 0⟩) := by
  have hinv := runStreams_firstFive env streams ⟨[], [], 0⟩ hrej rfl rfl
    (by simp)
  refine ⟨hinv.2.2, hinv.1, ?_⟩
  obtain ⟨i, hi⟩ := himdb
  have htop : topTorrents env streams = [] := by
    unfold topTorrents
    rw [hinv.1]
    rfl
  have hie : streams.isEmpty = false := by
    cases streams
    · exact absurd rfl hne
    · rfl
  simp [process_overseerr_request, hi, hs, htop, hie]

/-- Witness for C3: six candidates, the first five checked hashes
available but garbage, the sixth available and accept-flagged — the
run still stops at 5 checked hashes with the no-eligible outcome. -/
theorem C3_early_stop_witness :
    (runStreams sixthGoodEnv ⟨[], [], 0⟩ sixStreams).checked.length ≤ 5 ∧
    (runStreams sixthGoodEnv ⟨[], [], 0⟩ sixStreams).ranked = [] ∧
    process_overseerr_request sixthGoodEnv =
      (.noEligible, ⟨true, 0, 0⟩) :=
  C3_early_stop sixthGoodEnv sixStreams rfl (by decide) ⟨"tt1", rfl⟩
    (by
      intro p hp
      have hl : (checkedPairs [] sixStreams).take 5 =
          [("h1", "t"), ("h2", "t"), ("h3", "t"), ("h4", "t"),
           ("h5", "t")] := by decide
      rw [hl] at hp
      fin_cases hp <;>
        exact ⟨⟨[(0, ⟨"f.mkv", 1⟩)], rfl, rfl⟩, Or.inl (by decide)⟩)

/-- C4.  Movie commits with an integer index and a fetched file list:
an in-range `file_idx` selects exactly the file at that position
(one `selectFiles` POST with that single file id, success exactly on a
204); an out-of-range `file_idx` returns `False` with no `selectFiles`
POST and no fallback selection. -/
theorem C4_movie_file_selection (guess : String → Option String)
    (cenv : CommitEnv) (i : Int) (h200 : cenv.filesStatus = 200) :
    ((0 ≤ i ∧ i < (cenv.files.length : Int)) →
      ∃ f, cenv.files.get? i.toNat = some f ∧
        select_files_in_rd guess cenv (.int i) "movie" =
          .ok ⟨decide (cenv.selectStatus = 204), true, [f.id]⟩) ∧
    ((i < 0 ∨ (cenv.files.length : Int) ≤ i) →
      select_files_in_rd guess cenv (.int i) "movie" =
        .ok ⟨false, false, []⟩) := by
  have hne : ¬ (cenv.filesStatus ≠ 200) := by simp [h200]
  constructor
  · rintro ⟨h0, hlt⟩
    have htn : i.toNat < cenv.files.length := by omega
    have hbad : (decide (i < 0) ||
        decide ((cenv.files.length : Int) ≤ i)) = false := by
      simp; omega
    cases hf : cenv.files.get? i.toNat with
    | none =>
      exact absurd (List.get?_eq_none.mp hf) (by omega)
    | some f =>
      refine ⟨f, rfl, ?_⟩
      simp only [select_files_in_rd, rangeCheck, hne, if_false, hbad]
      rw [List.get?_eq_getElem?] at hf
      simp [hf]
  · intro hoor
    have hbad : (decide (i < 0) ||
        decide ((cenv.files.length : Int) ≤ i)) = true := by
      rcases hoor with h1 | h1 <;> simp [h1]
    simp only [select_files_in_rd, rangeCheck, hne, if_false, hbad]
    simp

/-- Witness for C4: one file, index 0 in range. -/
theorem C4_movie_file_selection_witness :
    ∃ f, oneVideoCommit.files.get? (Int.toNat 0) = some f ∧
      select_files_in_rd mkvGuess oneVideoCommit (.int 0) "movie" =
        .ok ⟨decide (oneVideoCommit.selectStatus = 204), true, [f.id]⟩ :=
  (C4_movie_file_selection mkvGuess oneVideoCommit 0 rfl).1
    ⟨by decide, by decide⟩

/-- C5 counterexample.  A series commit is **not** independent of the
file-index hint: with one (video) file in the torrent and hint 5, the
range check at src/utils.py:406 fails first and the commit returns
`False` with nothing selected, even though a qualifying video file
exists. -/
theorem C5_hint_dependence_counterexample :
    select_files_in_rd mkvGuess oneVideoCommit (.int 5) "tv" =
      .ok ⟨false, false, []⟩ ∧
    (oneVideoCommit.files.filter
      (fun f => guessIsVideo mkvGuess f.path)).map (fun f => f.id) = [7] :=
  ⟨by decide, by decide⟩

/-- C5 amended.  For a series commit whose integer hint is in range for
the file list, the selected set is exactly the ids of the video-typed
files — never a non-video file — with success exactly on a 204, and
zero qualifying files yield `False`; an out-of-range hint, however,
fails the commit before the series branch (see the counterexample). -/
theorem C5_series_video_selection (guess : String → Option String)
    (cenv : CommitEnv) (i : Int) (h200 : cenv.filesStatus = 200)
    (h0 : 0 ≤ i) (hlt : i < (cenv.files.length : Int)) :
    ((cenv.files.filter (fun f => guessIsVideo guess f.path)).map
        (fun f => f.id) = [] →
      select_files_in_rd guess cenv (.int i) "tv" = .ok ⟨false, false, []⟩) ∧
    ((cenv.files.filter (fun f => guessIsVideo guess f.path)).map
        (fun f => f.id) ≠ [] →
      select_files_in_rd guess cenv (.int i) "tv" =
        .ok ⟨decide (cenv.selectStatus = 204), true,
          (cenv.files.filter (fun f => guessIsVideo guess f.path)).map
            (fun f => f.id)⟩) ∧
    (∀ fid ∈ (cenv.files.filter (fun f => guessIsVideo guess f.path)).map
        (fun f => f.id),
      ∃ f, f ∈ cenv.files ∧ f.id = fid ∧
        guessIsVideo guess f.path = true) := by
  have hne : ¬ (cenv.filesStatus ≠ 200) := by simp [h200]
  have hbad : (decide (i < 0) ||
      decide ((cenv.files.length : Int) ≤ i)) = false := by
    simp; omega
  refine ⟨?_, ?_, ?_⟩
  · intro hempty
    simp only [select_files_in_rd, rangeCheck, hne, if_false, hbad]
    simp [hempty]
  · intro hnonempty
    simp only [select_files_in_rd, rangeCheck, hne, if_false, hbad]
    have hce : ((cenv.files.filter (fun f => guessIsVideo guess f.path)).map
        (fun f => f.id)).isEmpty = false := by
      simpa [List.isEmpty_iff] using hnonempty
    simp [hce]
  · intro fid hmem
    rcases List.mem_map.mp hmem with ⟨f, hfmem, hfid⟩
    exact ⟨f, (List.mem_filter.mp hfmem).1, hfid,
      (List.mem_filter.mp hfmem).2⟩

/-- Witness for C5 amended: one in-range video file is selected. -/
theorem C5_series_video_selection_witness :
    select_files_in_rd mkvGuess oneVideoCommit (.int 0) "tv" =
      .ok ⟨decide (oneVideoCommit.selectStatus = 204), true,
        (oneVideoCommit.files.filter
          (fun f => guessIsVideo mkvGuess f.path)).map (fun f => f.id)⟩ :=
  (C5_series_video_selection mkvGuess oneVideoCommit 0 rfl (by decide)
    (by decide)).2.1 (by decide)

/-- C6 counterexample.  On a successful (200) availability response
whose body does not contain a requested hash, the result does **not**
map that hash to any record — the hash is simply absent (the result is
built from the response's keys, not the requested ones); downstream,
`check_rd_availability` still degrades it to `None`. -/
theorem C6_missing_hash_counterexample :
    (get_instant_availability ["a"] 200 (.dict [])).lookup "a" = none ∧
    check_rd_availability 200 (.dict []) "a" = none :=
  ⟨by decide, by decide⟩

/-- C6 amended.  Availability normalization: a non-200 response, or a
list-shaped body, maps every **requested** hash to the empty record; a
200 dict body yields exactly the response's hashes, normalized —
a hash whose `"rd"` key is absent or empty maps to the empty record —
while requested hashes absent from the body are absent from the result,
and `check_rd_availability` turns that absence into `None`
(unavailable), never an error. -/
theorem C6_availability_normalization (hashes : List String)
    (status : Nat) (body : RDBody) (h : String) :
    (status ≠ 200 → h ∈ hashes →
      (get_instant_availability hashes status body).lookup h = some []) ∧
    (body = .jsonList → h ∈ hashes →
      (get_instant_availability hashes status body).lookup h = some []) ∧
    (∀ entries, status = 200 → body = .dict entries →
      (get_instant_availability hashes status body).lookup h =
        (entries.lookup h).map normalizeValues) ∧
    (∀ v : HashValues, v.rd = none ∨ v.rd = some [] →
      normalizeValues v = []) ∧
    (∀ entries, status = 200 → body = .dict entries →
      entries.lookup h = none →
      check_rd_availability status body h = none) := by
  have hdict : ∀ entries, status = 200 → body = .dict entries →
      (get_instant_availability hashes status body).lookup h =
        (entries.lookup h).map normalizeValues := by
    intro entries h2 hb
    subst hb
    simp only [get_instant_availability, h2]
    simp [lookup_map_normalize]
  refine ⟨?_, ?_, hdict, ?_, ?_⟩
  · intro hs hmem
    simp only [get_instant_availability, if_pos hs]
    exact lookup_map_empty hashes h hmem
  · intro hb hmem
    subst hb
    by_cases hs : status ≠ 200
    · simp only [get_instant_availability, if_pos hs]
      exact lookup_map_empty hashes h hmem
    · simp only [get_instant_availability, if_neg hs]
      exact lookup_map_empty hashes h hmem
  · intro v hv
    rcases hv with hv | hv <;> simp [normalizeValues, hv]
  · intro entries h2 hb hnone
    subst hb
    have hl : (get_instant_availability [h] status (.dict entries)).lookup h =
        (entries.lookup h).map normalizeValues := by
      simp only [get_instant_availability, h2]
      simp [lookup_map_normalize]
    unfold check_rd_availability
    simp [hl, hnone]

/-- Witness for C6 amended: a failed (503) call maps a requested hash
to the empty record. -/
theorem C6_availability_normalization_witness :
    (get_instant_availability ["a", "b"] 503 .jsonList).lookup "a" =
      some [] :=
  (C6_availability_normalization ["a", "b"] 503 .jsonList "a").1
    (by decide) (by decide)

/-- C7.  In both selection modes, a candidate reaches the commit call
only if its content hash has a truthy (non-empty) availability record
and its ranking accept flag (`fetch`) is true: any poll-path outcome
that commits (or raises out of the commit) and any push-path outcome
that commits (or raises) names a candidate satisfying both, given the
RTN contract that `rank` returns the hash it was passed. -/
theorem C7_commit_eligibility (env : Env) (hr : rankFaithful env) :
    (∀ b a, (process_overseerr_request env).1 = .committed b a →
      availAccepted env b) ∧
    (∀ b m, (process_overseerr_request env).1 = .raised b m →
      availAccepted env b) ∧
    (∀ streams tor s2, jellyseer_webhook_loop env streams = .committed tor s2 →
      availAccepted env tor) ∧
    (∀ streams tor m, jellyseer_webhook_loop env streams = .raised tor m →
      availAccepted env tor) := by
  refine ⟨?_, ?_, ?_, ?_⟩
  · intro b a hE
    rcases process_cases env with hp | hp | hp | ⟨st, bb, r, hs, ht, hp⟩ <;>
      rw [hp] at hE
    · simp at hE
    · simp at hE
    · simp at hE
    · rw [commitBest_committed env bb b a hE]
      exact topTorrents_head_eligible env hr st bb r ht
  · intro b m hE
    rcases process_cases env with hp | hp | hp | ⟨st, bb, r, hs, ht, hp⟩ <;>
      rw [hp] at hE
    · simp at hE
    · simp at hE
    · simp at hE
    · rw [commitBest_raised env bb b m hE]
      exact topTorrents_head_eligible env hr st bb r ht
  · intro streams tor s2 hE
    exact (push_loop_eligible env hr streams).1 tor s2 hE
  · intro streams tor m hE
    exact (push_loop_eligible env hr streams).2 tor m hE

/-- Witness for C7: the demo run's committed candidate is available and
accept-flagged. -/
theorem C7_commit_eligibility_witness :
    availAccepted demoEnv ⟨"h2", 30, true, "t2"⟩ :=
  (C7_commit_eligibility demoEnv
      (fun _ _ tor e => by injection e with e2; rw [← e2])).1
    ⟨"h2", 30, true, "t2"⟩ false (by decide)

/-- C8.  The identifier resolver returns `None` — not an error — on a
successful (200) response with an empty result list, and any poll-path
request whose resolution yields `None` is skipped: no discovery query,
no commit call, no acknowledgement. -/
theorem C8_resolver_notfound (env : Env) (h200 : env.trakt.status = 200)
    (hempty : env.trakt.body = []) :
    get_imdb_id_from_trakt env.trakt env.media_type = none ∧
    process_overseerr_request env = (.noImdb, ⟨false, 0, 0⟩) ∧
    (∀ env2 : Env, get_imdb_id_from_trakt env2.trakt env2.media_type = none →
      process_overseerr_request env2 = (.noImdb, ⟨false, 0, 0⟩)) := by
  have h1 : get_imdb_id_from_trakt env.trakt env.media_type = none := by
    simp [get_imdb_id_from_trakt, h200, hempty]
  have h3 : ∀ env2 : Env,
      get_imdb_id_from_trakt env2.trakt env2.media_type = none →
      process_overseerr_request env2 = (.noImdb, ⟨false, 0, 0⟩) := by
    intro env2 hn
    simp [process_overseerr_request, hn]
  exact ⟨h1, h3 env h1, h3⟩

/-- Witness for C8: a concrete empty 200 Trakt response. -/
theorem C8_resolver_notfound_witness :
    get_imdb_id_from_trakt emptyTraktEnv.trakt emptyTraktEnv.media_type =
      none ∧
    process_overseerr_request emptyTraktEnv = (.noImdb, ⟨false, 0, 0⟩) :=
  ⟨(C8_resolver_notfound emptyTraktEnv rfl rfl).1,
   (C8_resolver_notfound emptyTraktEnv rfl rfl).2.1⟩

set_option maxRecDepth 4000 in
/-- C9 counterexample.  The rate limiter is **not** shared: each
decorated call site owns an independent limiter, so a burst of 60 calls
through each of two sites at time 0 all execute at time 0 — 120 calls
inside one rolling 60-second window, twice the claimed shared cap. -/
theorem C9_shared_cap_counterexample :
    (runTwoSites 60 60 (⟨0, 0⟩, ⟨0, 0⟩)
        (List.replicate 60 (true, 0) ++ List.replicate 60 (false, 0))).length
      = 120 ∧
    (runTwoSites 60 60 (⟨0, 0⟩, ⟨0, 0⟩)
        (List.replicate 60 (true, 0) ++ List.replicate 60 (false, 0))).countP
        (fun t => t < 60) = 120 ∧
    ¬ (120 : Nat) ≤ 60 :=
  ⟨by decide, by decide, by decide⟩

/-- C9 amended.  Each rate-limited call site has its own independent
fixed-window limiter (cap 60 per 60 s): no call is ever dropped (every
request gets an execution time — an over-cap call is delayed to the end
of the current window), and each site's window counter never exceeds
the cap; but because the limiters are independent, combined calls
across sites in one window can reach the cap times the number of sites
(see the counterexample). -/
theorem C9_per_site_limiter (cap period : Nat) (hcap : 1 ≤ cap) :
    (∀ (s : LimState) (ts : List Nat),
      ((runSite cap period s ts).2).length = ts.length) ∧
    (∀ (s : LimState) (t : Nat),
      ((execCall cap period s t).1).num_calls ≤ cap) ∧
    (∀ (s : LimState) (t : Nat),
      ¬ ((acquireReset period s t).num_calls + 1 ≤ cap) →
      (execCall cap period s t).2 =
        (acquireReset period s t).last_reset + period) := by
  refine ⟨?_, ?_, ?_⟩
  · intro s ts
    induction ts generalizing s with
    | nil => rfl
    | cons t rest iH =>
      simp only [runSite]
      rcases hp : execCall cap period s t with ⟨s2, e⟩
      rcases hq : runSite cap period s2 rest with ⟨s3, es⟩
      have hlen := iH s2
      rw [hq] at hlen
      simp [hlen]
  · intro s t
    unfold execCall
    by_cases hle : (acquireReset period s t).num_calls + 1 ≤ cap
    · rw [if_pos hle]; exact hle
    · rw [if_neg hle]; exact hcap
  · intro s t hgt
    unfold execCall
    rw [if_neg hgt]

/-- Witness for C9 amended: three same-time calls through one site are
all executed (none dropped). -/
theorem C9_per_site_limiter_witness :
    ((runSite 60 60 ⟨0, 0⟩ [0, 0, 0]).2).length = [0, 0, 0].length :=
  (C9_per_site_limiter 60 60 (by decide)).1 ⟨0, 0⟩ [0, 0, 0]

/-- C10.  The poll path invokes the commit stage with the string
literal `"1"` as the file index (src/utils.py:154); for a movie
request the range comparison `file_idx < 0` then raises `TypeError`
once the file list is fetched (status 200), so a poll-path movie run
never acknowledges: `mark_completed` is never called and no committed
outcome carries `acked = true`. -/
theorem C10_poll_commit_string_index (env : Env)
    (hm : env.media_type = "movie") :
    (process_overseerr_request env).2.acks = 0 ∧
    (∀ b a, (process_overseerr_request env).1 = .committed b a →
      a = false) ∧
    (env.commit.filesStatus = 200 →
      select_files_in_rd env.guess env.commit (.str "1") env.media_type =
        .error "TypeError") := by
  refine ⟨?_, ?_, ?_⟩
  · rcases process_cases env with hp | hp | hp | ⟨st, b, r, hs, ht, hp⟩ <;>
      rw [hp]
    exact (commitBest_no_ack env b).1
  · intro b a hE
    rcases process_cases env with hp | hp | hp | ⟨st, bb, r, hs, ht, hp⟩ <;>
      rw [hp] at hE
    · simp at hE
    · simp at hE
    · simp at hE
    · exact (commitBest_no_ack env bb).2 b a hE
  · intro h200
    rw [hm]
    have hne : ¬ (env.commit.filesStatus ≠ 200) := by simp [h200]
    simp only [select_files_in_rd, rangeCheck, hne, if_false]

/-- Witness for C10: the demo movie run sends no acknowledgement. -/
theorem C10_poll_commit_string_index_witness :
    (process_overseerr_request demoEnv).2.acks = 0 :=
  (C10_poll_commit_string_index demoEnv rfl).1

end Seerr
